import Mathlib

set_option maxHeartbeats 1000000

/-
Verification of the six-phase new-employees reconciliation pipeline
(connectteam-to-costpoint-new-employees). The Python source is shallowly
embedded: Python dicts become insertion-ordered association lists, the two
HTTP clients become explicit data or outcome functions, fallible code
returns Option or Except, and the per-status pagination loop becomes a
fuel-indexed recursion.
-/

namespace NESync

-- ===========================================================================
-- Data model (app/models/model.py)
-- ===========================================================================

/-- One employee assignment on a CT project (model.py WorkforceRecord). -/
structure WorkforceRecord where
  empl_id : String
  proj_id : String
  proj_name : String
  bill_lab_cat_cd : String
deriving DecidableEq, Repr

/-- Costpoint employee details needed for Connecteam user creation
(model.py EmployeeRecord). Dates are ISO strings, possibly empty. -/
structure EmployeeRecord where
  empl_id : String
  first_name : String
  last_name : String
  home_email_id : String
  orig_hire_dt : String
  birth_dt : String
  is_active : Bool
deriving DecidableEq, Repr

-- ===========================================================================
-- Python dict model: insertion-ordered association lists
-- ===========================================================================

/-- Membership test on a Python dict, modelling the expression k in d. -/
def dmem {α : Type} (k : String) (m : List (String × α)) : Bool :=
  m.any (fun p => p.1 == k)

/-- Lookup of the first entry for a key, modelling d[k] / d.get(k). -/
def dlookup {α : Type} (k : String) : List (String × α) → Option α
  | [] => none
  | p :: rest => if p.1 == k then some p.2 else dlookup k rest

/-- Keys of the dict in insertion order, modelling list(d.keys()). -/
def dkeys {α : Type} (m : List (String × α)) : List String :=
  m.map Prod.fst

/-- Models the statement pair `if k not in d: d[k] = v` on a Python dict:
an absent key is appended at the end (insertion order), a present key
leaves the dict unchanged. -/
def dinsertIfAbsent {α : Type} (m : List (String × α)) (k : String) (v : α) :
    List (String × α) :=
  if dmem k m then m else m ++ [(k, v)]

/-- Models plain dict assignment d[k] = v: an existing key keeps its
position and gets the new value, a new key is appended. -/
def dassign {α : Type} : List (String × α) → String → α → List (String × α)
  | [], k, v => [(k, v)]
  | p :: rest, k, v => if p.1 == k then (k, v) :: rest else p :: dassign rest k v

/-- First of two options, modelling keep-the-earlier-binding. -/
def ofirst {α : Type} : Option α → Option α → Option α
  | some v, _ => some v
  | none, b => b

-- ===========================================================================
-- Phase 2 (sync.py run_phase_2): membership enumeration and dedup
-- ===========================================================================

/-- Inner loop of run_phase_2: insert every roster record, keeping an
employee already present from an earlier record. -/
def insertRoster (m : List (String × WorkforceRecord)) (records : List WorkforceRecord) :
    List (String × WorkforceRecord) :=
  records.foldl (fun acc rec => dinsertIfAbsent acc rec.empl_id rec) m

/-- sync.py run_phase_2: for each CT project of Phase 1, in insertion
order, fetch the workforce roster and accumulate one record per employee,
first project wins for duplicates. The Costpoint client is modelled by the
function get_workforce from project id and name to the roster it returns. -/
def run_phase_2 (get_workforce : String → String → List WorkforceRecord)
    (ct_projects : List (String × String)) : List (String × WorkforceRecord) :=
  ct_projects.foldl (fun acc p => insertRoster acc (get_workforce p.1 p.2)) []

/-- Concatenation of all rosters in Phase-1 project order; reference list
for the first-seen-wins characterisation of run_phase_2. -/
def rosterConcat (get_workforce : String → String → List WorkforceRecord) :
    List (String × String) → List WorkforceRecord
  | [] => []
  | p :: rest => get_workforce p.1 p.2 ++ rosterConcat get_workforce rest

-- ===========================================================================
-- Phase 3 (sync.py run_phase_3): member detail resolution, activity filter
-- ===========================================================================

/-- sync.py run_phase_3: one lookup per workforce key in insertion order;
an absent employee or an inactive employee is dropped, an active one is
added under its empl_id. The Costpoint client is modelled by the function
get_employee from empl_id to the optional record it returns. -/
def run_phase_3 (get_employee : String → Option EmployeeRecord)
    (workforce : List (String × WorkforceRecord)) : List (String × EmployeeRecord) :=
  workforce.foldl (fun acc p =>
    match get_employee p.1 with
    | none => acc
    | some emp => if emp.is_active then acc ++ [(p.1, emp)] else acc) []

-- ===========================================================================
-- Phase 5 (sync.py run_phase_5): missing-set computation
-- ===========================================================================

/-- sync.py run_phase_5: the list comprehension
[eid for eid in employees if eid not in existing_cp_ids]. The Python set
of existing Connecteam ids is modelled by the list of its elements, only
membership is used. -/
def run_phase_5 (employees : List (String × EmployeeRecord))
    (existing_cp_ids : List String) : List String :=
  (employees.map Prod.fst).filter (fun eid => !existing_cp_ids.contains eid)

-- ===========================================================================
-- Connecteam payload construction (app/clients/connecteam.py)
-- ===========================================================================

/-- Connecteam custom field ids from connecteam.py. -/
def CF_CP_ID : Nat := 15329039

def CF_HIRE_DATE : Nat := 4360693

def CF_BIRTH_DATE : Nat := 4360698

def CF_BRANCH : Nat := 4360696

def CF_TEAM : Nat := 4360694

def CF_TITLE : Nat := 4360692

def CF_ORG : Nat := 4360695

/-- Numeric value of a decimal digit character. -/
def digitVal (c : Char) : Nat := c.toNat - 48

/-- Gregorian leap-year rule, as validated by datetime.date. -/
def isLeapYear (y : Nat) : Bool :=
  y % 4 == 0 && (y % 100 != 0 || y % 400 == 0)

/-- Days in a month, as validated by datetime.date. -/
def daysInMonth (y m : Nat) : Nat :=
  if m == 2 then (if isLeapYear y then 29 else 28)
  else if m == 4 || m == 6 || m == 9 || m == 11 then 30
  else 31

/-- Validation of the optional time-of-day part accepted after the date:
either nothing, or THH:MM:SS with in-range fields. -/
def validTimeChars : List Char → Bool
  | [] => true
  | 'T' :: h1 :: h2 :: ':' :: m1 :: m2 :: ':' :: s1 :: s2 :: [] =>
    h1.isDigit && h2.isDigit && m1.isDigit && m2.isDigit && s1.isDigit && s2.isDigit &&
    digitVal h1 * 10 + digitVal h2 < 24 && digitVal m1 * 10 + digitVal m2 < 60 &&
    digitVal s1 * 10 + digitVal s2 < 60
  | _ => false

/-- Parse of exactly ten characters YYYY-MM-DD into (year, month, day),
with the range checks datetime.date performs. -/
def parseDate10 : List Char → Option (Nat × Nat × Nat)
  | [y1, y2, y3, y4, '-', m1, m2, '-', d1, d2] =>
    if y1.isDigit && y2.isDigit && y3.isDigit && y4.isDigit &&
        m1.isDigit && m2.isDigit && d1.isDigit && d2.isDigit then
      let y := digitVal y1 * 1000 + digitVal y2 * 100 + digitVal y3 * 10 + digitVal y4
      let m := digitVal m1 * 10 + digitVal m2
      let d := digitVal d1 * 10 + digitVal d2
      if 1 ≤ y && 1 ≤ m && m ≤ 12 && 1 ≤ d && d ≤ daysInMonth y m then
        some (y, m, d)
      else none
    else none
  | _ => none

/-- Model of datetime.fromisoformat restricted to the shapes Costpoint
produces, YYYY-MM-DD optionally followed by THH:MM:SS: the date is read
from the first ten characters and the time-of-day part is only validated,
never used. A string outside this grammar parses to none (in Python a
ValueError propagates). -/
def parseIsoChars (cs : List Char) : Option (Nat × Nat × Nat) :=
  if validTimeChars (cs.drop 10) then parseDate10 (cs.take 10) else none

/-- Two-digit zero-padded rendering, as strftime %m and %d produce. -/
def pad2 (n : Nat) : String := if n < 10 then "0" ++ toString n else toString n

/-- connecteam.py format_date: datetime.fromisoformat(iso_date) and then
strftime month/day/year, so 2011-07-11T00:00:00 becomes 07/11/2011. -/
def format_date (iso_date : String) : Option String :=
  (parseIsoChars iso_date.toList).map
    (fun t => pad2 t.2.1 ++ "/" ++ pad2 t.2.2 ++ "/" ++ toString t.1)

/-- connecteam.py get_team: map the project id onto a Connecteam
team name by the 2392 project-id-first-characters rule. -/
def get_team (proj_id : String) : String :=
  if proj_id.startsWith "2392" then "FL Security 2025" else "FL Baker 2025"

/-- One entry of the customFields list of a creation payload. -/
structure CustomField where
  customFieldId : Nat
  value : String
deriving DecidableEq, Repr

/-- The Connecteam creation payload built by connecteam.py build_payload.
The email key is optional, matching its conditional presence in the
Python dict. -/
structure Payload where
  userType : String
  isArchived : Bool
  firstName : String
  lastName : String
  customFields : List CustomField
  email : Option String
deriving DecidableEq, Repr

/-- The conditional date block of build_payload: no field when the source
string is falsy (empty), otherwise one field with the reformatted date; a
malformed non-empty date makes format_date fail, modelled as none (in
Python the ValueError propagates out of build_payload). -/
def dateField (cfId : Nat) (s : String) : Option (List CustomField) :=
  if s = "" then some [] else
    (format_date s).map (fun d => [(⟨cfId, d⟩ : CustomField)])

/-- connecteam.py build_payload: the five unconditional custom fields, a
hire-date field and a birth-date field exactly when the source strings
are truthy (non-empty), and the email key exactly when home_email_id is
truthy. -/
def build_payload (workforce : WorkforceRecord) (employee : EmployeeRecord) :
    Option Payload :=
  let base : List CustomField :=
    [⟨CF_CP_ID, employee.empl_id⟩,
     ⟨CF_TITLE, workforce.bill_lab_cat_cd⟩,
     ⟨CF_BRANCH, workforce.proj_id⟩,
     ⟨CF_TEAM, get_team workforce.proj_id⟩,
     ⟨CF_ORG, workforce.proj_name⟩]
  (dateField CF_HIRE_DATE employee.orig_hire_dt).bind (fun hire =>
    (dateField CF_BIRTH_DATE employee.birth_dt).bind (fun birth =>
      some ⟨"user", false, employee.first_name, employee.last_name,
        base ++ hire ++ birth,
        if employee.home_email_id = "" then none else some employee.home_email_id⟩))

-- ===========================================================================
-- Phase 6 (sync.py run_phase_6, connecteam.py post_user)
-- ===========================================================================

/-- HTTP outcome of one Connecteam user-creation POST, abstracting the
network: either a 2xx response body, or the httpx.HTTPStatusError raised
by raise_for_status. Transport timeouts are retried at the client layer
and are outside this embedding. -/
inductive PostOutcome where
  | created (response : String)
  | httpError (status : Nat) (detail : String)

/-- Per-employee creation outcome, modelling the result dict returned by
connecteam.py post_user: success flag, empl_id and display name for
report correlation, and the response body or error detail. -/
structure CreationResult where
  success : Bool
  empl_id : String
  name : String
  detail : String
deriving DecidableEq, Repr

/-- connecteam.py post_user: build the payload (a failure there propagates,
hence the Option), then POST; a non-2xx response is caught and turned into
a success=false result, so it never aborts the Phase-6 loop. The network
is modelled by the outcome function keyed on empl_id. -/
def post_user (outcome : String → PostOutcome) (workforce : WorkforceRecord)
    (employee : EmployeeRecord) : Option CreationResult :=
  (build_payload workforce employee).map (fun _ =>
    match outcome employee.empl_id with
    | .created resp =>
      ⟨true, employee.empl_id, employee.first_name ++ " " ++ employee.last_name, resp⟩
    | .httpError _ detail =>
      ⟨false, employee.empl_id, employee.first_name ++ " " ++ employee.last_name, detail⟩)

/-- The work Phase 6 does for one missing empl_id in live mode: the two
unguarded dict lookups workforce[empl_id] and employees[empl_id] (a
KeyError is modelled as none) and then post_user. -/
def creation_for (outcome : String → PostOutcome)
    (workforce : List (String × WorkforceRecord))
    (employees : List (String × EmployeeRecord)) (eid : String) : Option CreationResult :=
  (dlookup eid workforce).bind (fun wf =>
    (dlookup eid employees).bind (fun emp => post_user outcome wf emp))

/-- Live-mode loop of run_phase_6. The first component is the trace of
empl_ids for which a creation POST was actually issued, in order; the
second is the accumulated result list, none when an uncaught error
(KeyError or date ValueError, both raised before the POST of the failing
item) aborts the loop. -/
def livePhase6 (outcome : String → PostOutcome)
    (workforce : List (String × WorkforceRecord))
    (employees : List (String × EmployeeRecord)) :
    List String → List String × Option (List CreationResult)
  | [] => ([], some [])
  | eid :: rest =>
    match creation_for outcome workforce employees eid with
    | none => ([], none)
    | some res =>
      let t := livePhase6 outcome workforce employees rest
      (eid :: t.1, t.2.map (fun rs => res :: rs))

/-- One entry of the dry-run preview list: the tag fields _empl_id and
_name plus the payload build_payload would send. -/
structure PreviewEntry where
  empl_id : String
  name : String
  payload : Payload
deriving DecidableEq, Repr

/-- The work Phase 6 does for one missing empl_id in dry-run mode: the
same two unguarded lookups, then build_payload, collected into a preview
entry. -/
def preview_for (workforce : List (String × WorkforceRecord))
    (employees : List (String × EmployeeRecord)) (eid : String) : Option PreviewEntry :=
  (dlookup eid workforce).bind (fun wf =>
    (dlookup eid employees).bind (fun emp =>
      (build_payload wf emp).map (fun p =>
        ⟨eid, emp.first_name ++ " " ++ emp.last_name, p⟩)))

/-- Evaluation of a list comprehension whose element expression can raise:
none as soon as one element fails, the whole list otherwise. -/
def optionMapList {α : Type} (f : String → Option α) : List String → Option (List α)
  | [] => some []
  | x :: xs =>
    match f x, optionMapList f xs with
    | some y, some ys => some (y :: ys)
    | _, _ => none

/-- Full output of run_phase_6 as seen by the caller: the value the Python
function returns (results) plus the dry-run preview it persists. -/
structure Phase6Out where
  results : List CreationResult
  preview : List PreviewEntry
deriving DecidableEq, Repr

/-- sync.py run_phase_6. Dry run: build the preview list, issue no POST,
and return an empty result list. Live: POST each missing employee one at
a time. The first component is the trace of empl_ids actually POSTed;
the second is none when an uncaught error aborts the phase. -/
def run_phase_6 (outcome : String → PostOutcome)
    (workforce : List (String × WorkforceRecord))
    (employees : List (String × EmployeeRecord))
    (missing_ids : List String) (dry_run : Bool) :
    List String × Option Phase6Out :=
  if dry_run then
    ([], (optionMapList (preview_for workforce employees) missing_ids).map
      (fun pv => ⟨[], pv⟩))
  else
    let t := livePhase6 outcome workforce employees missing_ids
    (t.1, t.2.map (fun rs => ⟨rs, []⟩))

-- ===========================================================================
-- Phase 4 pagination (connecteam.py _collect_cp_ids_by_status)
-- ===========================================================================

/-- One custom field of a Connecteam user as returned by the listing. -/
structure UserCustomField where
  customFieldId : Nat
  value : String
deriving DecidableEq, Repr

/-- A Connecteam user as returned by the listing endpoint; only the custom
fields are read. -/
structure CtUser where
  customFields : List UserCustomField
deriving DecidableEq, Repr

/-- One page of the users listing: the data.users items and the
paging.offset value, absent when the response carries none. -/
structure UsersPage where
  users : List CtUser
  nextOffset : Option Nat
deriving DecidableEq, Repr

/-- Python set.add on the model of a set as the list of its elements. -/
def setAdd (s : List String) (x : String) : List String :=
  if s.contains x then s else s ++ [x]

/-- Accumulation of the CP-ID custom-field values of one page of users:
fields with the CF_CP_ID id and a truthy value. -/
def addPageIds (acc : List String) (users : List CtUser) : List String :=
  users.foldl (fun a u =>
    u.customFields.foldl (fun a2 cf =>
      if cf.customFieldId == CF_CP_ID && cf.value != "" then setAdd a2 cf.value
      else a2) a) acc

/-- Outcome of one iteration of the while-True pagination loop. -/
inductive StepRes where
  | done (acc : List String)
  | next (offset : Nat) (acc : List String)
deriving DecidableEq, Repr

/-- One iteration of the loop body of _collect_cp_ids_by_status: an empty
page stops with the accumulator unchanged; otherwise the page ids are
added and the loop stops when paging.offset is absent or does not advance
past the current offset. The listing is modelled by the page function
from offset to returned page. -/
def collectStep (page : Nat → UsersPage) (offset : Nat) (acc : List String) : StepRes :=
  let data := page offset
  if data.users.isEmpty then .done acc
  else
    let acc2 := addPageIds acc data.users
    match data.nextOffset with
    | none => .done acc2
    | some n => if n ≤ offset then .done acc2 else .next n acc2

/-- The while-True loop of _collect_cp_ids_by_status as a fuel-indexed
recursion: none means the fuel ran out before a stop condition was hit. -/
def collectLoop (page : Nat → UsersPage) : Nat → Nat → List String → Option (List String)
  | 0, _, _ => none
  | fuel + 1, offset, acc =>
    match collectStep page offset acc with
    | .done a => some a
    | .next n a => collectLoop page fuel n a

-- ===========================================================================
-- Costpoint client error handling (app/clients/deltek.py)
-- ===========================================================================

/-- HTTP outcome of one Costpoint POST, abstracting the network: a parsed
2xx body, or a non-2xx status. Transport timeouts are retried by the
stamina decorator and are outside this embedding. -/
inductive HttpResult (α : Type) where
  | ok (body : α)
  | httpError (status : Nat) (body : String)

/-- The httpx.HTTPStatusError raised by response.raise_for_status. -/
structure HttpErr where
  status : Nat
  body : String
deriving DecidableEq, Repr

/-- deltek.py _post: raise_for_status surfaces a non-2xx response as an
exception, otherwise the parsed body is returned. -/
def post_raise {α : Type} : HttpResult α → Except HttpErr α
  | .ok a => .ok a
  | .httpError s b => .error ⟨s, b⟩

/-- A PJMBASIC_PROJ_NOTES child row of the projects response. -/
structure NotesChild where
  rsId : String
  notes : String
deriving DecidableEq, Repr

/-- A top-level row of the projects response with its notes children. -/
structure ProjRow where
  rsId : String
  proj_id : String
  proj_name : String
  children : List NotesChild
deriving DecidableEq, Repr

/-- Row-extraction loop of deltek.py get_ct_projects: keep PJMBASIC_PROJ
rows owning a PJMBASIC_PROJ_NOTES child whose NOTES equals the configured
filter value; ct_projects[proj_id] = proj_name is a dict assignment. -/
def extract_ct_projects (filter_notes_value : String) (rows : List ProjRow) :
    List (String × String) :=
  rows.foldl (fun acc row =>
    if row.rsId != "PJMBASIC_PROJ" then acc
    else row.children.foldl (fun acc2 child =>
      if child.rsId == "PJMBASIC_PROJ_NOTES" && child.notes == filter_notes_value then
        dassign acc2 row.proj_id row.proj_name
      else acc2) acc) []

/-- deltek.py get_ct_projects: _post then extraction; a non-2xx response
propagates to the caller unchanged. -/
def get_ct_projects (filter_notes_value : String) (resp : HttpResult (List ProjRow)) :
    Except HttpErr (List (String × String)) :=
  (post_raise resp).map (extract_ct_projects filter_notes_value)

/-- A PJM_PROJEMPLLABCAT_PLCWK grandchild row of the workforce response. -/
structure WfLabRow where
  rsId : String
  empl_id : String
  dflt_fl : String
  bill_lab_cat_cd : String
deriving DecidableEq, Repr

/-- A PJM_PROJEMPL_LABCAT_PLCWKFRCE child row of the workforce response. -/
structure WfChildRow where
  rsId : String
  children : List WfLabRow
deriving DecidableEq, Repr

/-- A PJM_PROJEMPL_HDR top-level row of the workforce response. -/
structure WfHdrRow where
  rsId : String
  children : List WfChildRow
deriving DecidableEq, Repr

/-- Grouping dict of get_workforce: empl_rows[empl_id].append(d) after the
initialising empty assignment for a new key. -/
def appendRow (m : List (String × List WfLabRow)) (k : String) (r : WfLabRow) :
    List (String × List WfLabRow) :=
  match m with
  | [] => [(k, [r])]
  | p :: rest => if p.1 == k then (p.1, p.2 ++ [r]) :: rest else p :: appendRow rest k r

/-- Row extraction of deltek.py get_workforce: group the qualifying
grandchild rows per empl_id in first-seen order, then keep, per employee,
the first row flagged DFLT_FL = Y, building one WorkforceRecord from its
billing labor category. -/
def extract_workforce (proj_id proj_name : String) (rows : List WfHdrRow) :
    List WorkforceRecord :=
  let empl_rows : List (String × List WfLabRow) :=
    rows.foldl (fun acc hdr =>
      if hdr.rsId != "PJM_PROJEMPL_HDR" then acc
      else hdr.children.foldl (fun acc2 child =>
        if child.rsId != "PJM_PROJEMPL_LABCAT_PLCWKFRCE" then acc2
        else child.children.foldl (fun acc3 gc =>
          if gc.rsId != "PJM_PROJEMPLLABCAT_PLCWK" then acc3
          else if gc.empl_id == "" then acc3
          else appendRow acc3 gc.empl_id gc) acc2) acc) []
  empl_rows.filterMap (fun p =>
    (p.2.find? (fun r => r.dflt_fl == "Y")).map (fun dflt =>
      ⟨p.1, proj_id, proj_name, dflt.bill_lab_cat_cd⟩))

/-- deltek.py get_workforce: _post then extraction; a non-2xx response
propagates to the caller unchanged. -/
def get_workforce (proj_id proj_name : String) (resp : HttpResult (List WfHdrRow)) :
    Except HttpErr (List WorkforceRecord) :=
  (post_raise resp).map (extract_workforce proj_id proj_name)

/-- The data fields of an LDMEINFO_EMPL row, each defaulting to the empty
string as row_data.get does. -/
structure EmplRowData where
  first_name : String
  last_name : String
  home_email_id : String
  orig_hire_dt : String
  birth_dt : String
  s_empl_status_cd : String
deriving DecidableEq, Repr

/-- Row extraction of deltek.py get_employee: an empty rows list is
employee-not-found; otherwise the first row is read, is_active meaning
S_EMPL_STATUS_CD equals ACT. -/
def extract_employee (empl_id : String) (rows : List EmplRowData) : Option EmployeeRecord :=
  match rows with
  | [] => none
  | r :: _ =>
    some ⟨empl_id, r.first_name, r.last_name, r.home_email_id, r.orig_hire_dt,
      r.birth_dt, r.s_empl_status_cd == "ACT"⟩

/-- deltek.py get_employee: unlike the other two fetches, the except
httpx.HTTPStatusError handler catches a non-2xx response, logs it, and
returns None, so the caller sees the same absent value as for an unknown
employee. -/
def get_employee (empl_id : String) (resp : HttpResult (List EmplRowData)) :
    Except HttpErr (Option EmployeeRecord) :=
  match post_raise resp with
  | .error _ => .ok none
  | .ok rows => .ok (extract_employee empl_id rows)

/-- Boolean discriminator: did a client call surface an HTTP failure to
its caller. -/
def isHttpFailure {α : Type} : Except HttpErr α → Bool
  | .error _ => true
  | .ok _ => false

-- ===========================================================================
-- Main pipeline (sync.py sync)
-- ===========================================================================

/-- The external world of one pipeline run: the Phase-1 projects result,
the two Costpoint fetch behaviours, the Phase-4 existing-ids result and
the Connecteam POST behaviour. Configuration loading and the snapshot,
telemetry and email collaborators do not influence the returned status on
the paths under verification and are not modelled. -/
structure Env where
  projects : List (String × String)
  get_workforce : String → String → List WorkforceRecord
  get_employee : String → Option EmployeeRecord
  existing_cp_ids : List String
  outcome : String → PostOutcome

/-- sync.py sync, lines 243-300: the guarded phase sequence and the final
status. Empty Phase-1 or Phase-2 output returns 1; empty Phase-3 or
Phase-5 output returns 0; an uncaught Phase-6 error is caught by the
top-level handler and returns 1; otherwise a live run returns 1 exactly
when some creation result failed, and a dry run returns 0. -/
def sync (env : Env) (dry_run : Bool) : Nat :=
  let ct_projects := env.projects
  if ct_projects.isEmpty then 1
  else
    let workforce := run_phase_2 env.get_workforce ct_projects
    if workforce.isEmpty then 1
    else
      let employees := run_phase_3 env.get_employee workforce
      if employees.isEmpty then 0
      else
        let missing_ids := run_phase_5 employees env.existing_cp_ids
        if missing_ids.isEmpty then 0
        else
          match (run_phase_6 env.outcome workforce employees missing_ids dry_run).2 with
          | none => 1
          | some out => if !dry_run && out.results.any (fun r => !r.success) then 1 else 0

-- ===========================================================================
-- Specification predicates for payload construction
-- ===========================================================================

/-- Domain of the date strings the data model declares: an ISO date-time
string, possibly empty. -/
def dateOk (s : String) : Prop :=
  s = "" ∨ (parseIsoChars s.toList).isSome = true

/-- The payload content claimed by the specification for one
MembershipRecord and MemberDetail pair: the employee id as dedup key, the
labor category, the group id, the team derived from the 2392 group-id
rule, the group display name; a hire-date and birth-date custom field,
reformatted to MM/DD/YYYY reading only the first ten (date) characters,
exactly when the source string is non-empty; and the email key exactly
when the profile email is non-empty. -/
def payloadSpec (wf : WorkforceRecord) (emp : EmployeeRecord) : Prop :=
  ∃ p, build_payload wf emp = some p ∧
    p.userType = "user" ∧ p.isArchived = false ∧
    p.firstName = emp.first_name ∧ p.lastName = emp.last_name ∧
    p.email = (if emp.home_email_id = "" then none else some emp.home_email_id) ∧
    ∃ hl bl,
      p.customFields =
        [⟨CF_CP_ID, emp.empl_id⟩, ⟨CF_TITLE, wf.bill_lab_cat_cd⟩,
         ⟨CF_BRANCH, wf.proj_id⟩,
         ⟨CF_TEAM, if wf.proj_id.startsWith "2392" then "FL Security 2025"
          else "FL Baker 2025"⟩,
         ⟨CF_ORG, wf.proj_name⟩] ++ hl ++ bl ∧
      (emp.orig_hire_dt = "" → hl = []) ∧
      (∀ y m d, parseIsoChars emp.orig_hire_dt.toList = some (y, m, d) →
        hl = [⟨CF_HIRE_DATE, pad2 m ++ "/" ++ pad2 d ++ "/" ++ toString y⟩] ∧
        parseIsoChars (emp.orig_hire_dt.toList.take 10) = some (y, m, d)) ∧
      (emp.birth_dt = "" → bl = []) ∧
      (∀ y m d, parseIsoChars emp.birth_dt.toList = some (y, m, d) →
        bl = [⟨CF_BIRTH_DATE, pad2 m ++ "/" ++ pad2 d ++ "/" ++ toString y⟩] ∧
        parseIsoChars (emp.birth_dt.toList.take 10) = some (y, m, d))

-- ===========================================================================
-- Witness inputs
-- ===========================================================================

/-- A concrete workforce record for witnesses. -/
def wfW (eid pid : String) : WorkforceRecord := ⟨eid, pid, "Proj " ++ pid, "GRD"⟩

/-- A concrete active employee record with a valid hire date for witnesses. -/
def empW (eid : String) : EmployeeRecord :=
  ⟨eid, "A" ++ eid, "Lee", "", "2011-07-11T00:00:00", "", true⟩

/-- A concrete roster assignment for the first-seen-wins witness. -/
def getWfW (pid : String) (_ : String) : List WorkforceRecord :=
  if pid = "P1" then [wfW "E9" pid] else [wfW "E5" pid]

/-- A concrete environment for the end-to-end live scenario: two projects,
three distinct employees, one already in Connecteam, one failing POST. -/
def envA : Env :=
  ⟨[("2392100", "Security"), ("1000001", "Baker")],
   fun pid _ =>
     if pid = "2392100" then [wfW "E1" pid, wfW "E2" pid] else [wfW "E2" pid, wfW "E3" pid],
   fun eid => some (empW eid),
   ["E1"],
   fun eid => if eid = "E2" then .httpError 400 "bad request" else .created "ok"⟩

/-- The Phase-6 output the envA scenario produces. -/
def outA : Phase6Out :=
  ⟨[⟨false, "E2", "AE2 Lee", "bad request"⟩, ⟨true, "E3", "AE3 Lee", "ok"⟩], []⟩

/-- A concrete environment whose Phase 1 finds no qualifying projects. -/
def envE : Env := ⟨[], fun _ _ => [], fun _ => none, [], fun _ => .created ""⟩

/-- A concrete exhausted listing for the pagination witness. -/
def pageW (_ : Nat) : UsersPage := ⟨[], none⟩

-- ===========================================================================
-- Dictionary lemmas
-- ===========================================================================

theorem ofirst_none_left {α : Type} (b : Option α) : ofirst none b = b := rfl

theorem ofirst_none_right {α : Type} (a : Option α) : ofirst a none = a := by
  cases a <;> rfl

theorem ofirst_assoc {α : Type} (a b c : Option α) :
    ofirst (ofirst a b) c = ofirst a (ofirst b c) := by
  cases a <;> rfl

theorem dlookup_append {α : Type} (k : String) (m1 m2 : List (String × α)) :
    dlookup k (m1 ++ m2) = ofirst (dlookup k m1) (dlookup k m2) := by
  induction m1 with
  | nil => rfl
  | cons p rest ih =>
    simp only [List.cons_append, dlookup]
    by_cases h : p.1 == k <;> simp [h, ih, ofirst]

theorem dmem_eq_isSome {α : Type} (k : String) (m : List (String × α)) :
    dmem k m = (dlookup k m).isSome := by
  induction m with
  | nil => rfl
  | cons p rest ih =>
    simp only [dmem, List.any_cons, dlookup]
    by_cases h : p.1 == k <;> simp [h, ← ih, dmem]

theorem dlookup_insertIfAbsent {α : Type} (e k : String) (v : α) (m : List (String × α)) :
    dlookup e (dinsertIfAbsent m k v) =
      ofirst (dlookup e m) (if k == e then some v else none) := by
  unfold dinsertIfAbsent
  by_cases hmem : dmem k m = true
  · rw [if_pos hmem]
    by_cases hk : k == e
    · have he : k = e := eq_of_beq hk
      subst he
      rw [dmem_eq_isSome] at hmem
      obtain ⟨w, hw⟩ := Option.isSome_iff_exists.mp hmem
      simp [hw, hk, ofirst]
    · simp [hk, ofirst_none_right]
  · rw [if_neg hmem, dlookup_append]
    have hv : dlookup e [(k, v)] = if k == e then some v else none := by
      simp only [dlookup]
    rw [hv]

theorem dkeys_cons {α : Type} (p : String × α) (rest : List (String × α)) :
    dkeys (p :: rest) = p.1 :: dkeys rest := rfl

theorem mem_dkeys_iff_isSome {α : Type} (k : String) (m : List (String × α)) :
    k ∈ dkeys m ↔ (dlookup k m).isSome := by
  induction m with
  | nil => simp [dkeys, dlookup]
  | cons p rest ih =>
    rw [dkeys_cons]
    simp only [List.mem_cons, dlookup]
    by_cases h : p.1 == k
    · have he : p.1 = k := eq_of_beq h
      simp [h, he]
    · have hne : ¬ k = p.1 := fun he => h (by simp [he])
      simp [h, hne, ih]

-- ===========================================================================
-- C1: Phase 5 missing-set computation
-- ===========================================================================

theorem contains_false_iff {a : String} {l : List String} :
    (l.contains a = false) ↔ a ∉ l := by
  rw [← Bool.not_eq_true, not_iff_not]
  exact List.elem_iff

/-- C1: run_phase_5 returns exactly the keys of the MemberDetail mapping
that are not members of the existing-identity set, in the mapping order:
it is the filtered key list, membership is key-of-D minus E, and the
result is a sublist of the keys of D (order preserved). -/
theorem run_phase_5_missing_set (D : List (String × EmployeeRecord)) (E : List String) :
    run_phase_5 D E = (dkeys D).filter (fun k => !E.contains k) ∧
    (∀ k, k ∈ run_phase_5 D E ↔ k ∈ dkeys D ∧ k ∉ E) ∧
    (run_phase_5 D E).Sublist (dkeys D) := by
  refine ⟨rfl, fun k => ?_, List.filter_sublist _⟩
  unfold run_phase_5
  rw [List.mem_filter]
  simp only [Bool.not_eq_true']
  exact and_congr Iff.rfl contains_false_iff

-- ===========================================================================
-- C2: Phase 2 dedup is first-seen-wins
-- ===========================================================================

theorem find?_append {α : Type} (p : α → Bool) (l1 l2 : List α) :
    (l1 ++ l2).find? p = ofirst (l1.find? p) (l2.find? p) := by
  induction l1 with
  | nil => rfl
  | cons a rest ih =>
    simp only [List.cons_append, List.find?]
    by_cases h : p a <;> simp [h, ih, ofirst]

theorem insertRoster_lookup (e : String) (m : List (String × WorkforceRecord))
    (records : List WorkforceRecord) :
    dlookup e (insertRoster m records) =
      ofirst (dlookup e m) (records.find? (fun r => r.empl_id == e)) := by
  induction records generalizing m with
  | nil => simp [insertRoster, List.find?, ofirst_none_right]
  | cons r rs ih =>
    simp only [insertRoster, List.foldl_cons] at ih ⊢
    rw [ih, dlookup_insertIfAbsent, ofirst_assoc, List.find?]
    by_cases h : r.empl_id == e <;> simp [h, ofirst]

theorem run_phase_2_foldl_lookup (e : String)
    (f : String → String → List WorkforceRecord)
    (ps : List (String × String)) (m : List (String × WorkforceRecord)) :
    dlookup e (ps.foldl (fun acc p => insertRoster acc (f p.1 p.2)) m) =
      ofirst (dlookup e m) ((rosterConcat f ps).find? (fun r => r.empl_id == e)) := by
  induction ps generalizing m with
  | nil => simp [rosterConcat, List.find?, ofirst_none_right]
  | cons p rest ih =>
    simp only [List.foldl_cons, rosterConcat]
    rw [ih, insertRoster_lookup, ofirst_assoc, find?_append]

/-- First-seen characterisation of run_phase_2: the merged mapping binds
each employee to the first roster record carrying that empl_id across the
concatenation of all rosters in Phase-1 project order. -/
theorem run_phase_2_lookup (e : String) (f : String → String → List WorkforceRecord)
    (ps : List (String × String)) :
    dlookup e (run_phase_2 f ps) =
      (rosterConcat f ps).find? (fun r => r.empl_id == e) := by
  unfold run_phase_2
  rw [run_phase_2_foldl_lookup]
  rfl

theorem rosterConcat_append (f : String → String → List WorkforceRecord)
    (a b : List (String × String)) :
    rosterConcat f (a ++ b) = rosterConcat f a ++ rosterConcat f b := by
  induction a with
  | nil => rfl
  | cons p rest ih => simp [rosterConcat, ih]

theorem mem_rosterConcat {r : WorkforceRecord} {f : String → String → List WorkforceRecord}
    {ps : List (String × String)} :
    r ∈ rosterConcat f ps ↔ ∃ p ∈ ps, r ∈ f p.1 p.2 := by
  induction ps with
  | nil => simp [rosterConcat]
  | cons p rest ih => simp [rosterConcat, ih, List.mem_append]

/-- C2: first-seen-wins dedup. If the groups split as ps1 ++ g :: ps2, no
group before g contributes a record for employee e, and the roster of g
does contain e, then the merged mapping of run_phase_2 binds e exactly to
the record of the roster of g (its first such record), whatever the later
groups ps2 contribute. -/
theorem run_phase_2_first_seen_wins (f : String → String → List WorkforceRecord)
    (ps1 ps2 : List (String × String)) (g : String × String) (e : String)
    (hEarlier : ∀ p ∈ ps1, ∀ r ∈ f p.1 p.2, ¬ r.empl_id = e)
    (hHere : ∃ r ∈ f g.1 g.2, r.empl_id = e) :
    dlookup e (run_phase_2 f (ps1 ++ g :: ps2)) =
      (f g.1 g.2).find? (fun r => r.empl_id == e) ∧
    (dlookup e (run_phase_2 f (ps1 ++ g :: ps2))).isSome := by
  have hchar := run_phase_2_lookup e f (ps1 ++ g :: ps2)
  rw [rosterConcat_append] at hchar
  have hcons : rosterConcat f (g :: ps2) = f g.1 g.2 ++ rosterConcat f ps2 := rfl
  rw [hcons, find?_append, find?_append] at hchar
  have hnone : (rosterConcat f ps1).find? (fun r => r.empl_id == e) = none := by
    rw [List.find?_eq_none]
    intro x hx
    obtain ⟨p, hp, hxp⟩ := mem_rosterConcat.mp hx
    simpa using hEarlier p hp x hxp
  have hsome : ((f g.1 g.2).find? (fun r => r.empl_id == e)).isSome := by
    rw [List.find?_isSome]
    obtain ⟨r, hr, hre⟩ := hHere
    exact ⟨r, hr, by simp [hre]⟩
  obtain ⟨w, hw⟩ := Option.isSome_iff_exists.mp hsome
  rw [hnone, hw] at hchar
  simp only [ofirst] at hchar
  rw [hchar, hw]
  simp

/-- C2 witness: a run with three groups where employee E5 first appears in
the second group and again in the third. -/
theorem run_phase_2_first_seen_wins_witness :
    (∀ p ∈ [("P1", "a")], ∀ r ∈ getWfW p.1 p.2, ¬ r.empl_id = "E5") ∧
    (∃ r ∈ getWfW "P2" "b", r.empl_id = "E5") ∧
    (dlookup "E5" (run_phase_2 getWfW ([("P1", "a")] ++ ("P2", "b") :: [("P3", "c")])) =
      (getWfW "P2" "b").find? (fun r => r.empl_id == "E5") ∧
    (dlookup "E5" (run_phase_2 getWfW ([("P1", "a")] ++ ("P2", "b") :: [("P3", "c")]))).isSome) :=
  ⟨by decide, by decide,
   run_phase_2_first_seen_wins getWfW [("P1", "a")] [("P3", "c")] ("P2", "b") "E5"
     (by decide) (by decide)⟩

-- ===========================================================================
-- C3: Phase 6 live mode attempts each missing employee exactly once
-- ===========================================================================

theorem filterMap_length_all_some {α β : Type} (f : α → Option β) (l : List α)
    (h : ∀ x ∈ l, (f x).isSome = true) : (l.filterMap f).length = l.length := by
  induction l with
  | nil => rfl
  | cons a rest ih =>
    obtain ⟨b, hb⟩ := Option.isSome_iff_exists.mp (h a (List.mem_cons_self a rest))
    rw [List.filterMap_cons, hb]
    simp only [List.length_cons]
    rw [ih (fun x hx => h x (List.mem_cons_of_mem a hx))]

theorem livePhase6_all_some (outcome : String → PostOutcome)
    (W : List (String × WorkforceRecord)) (E : List (String × EmployeeRecord))
    (missing : List String)
    (h : ∀ eid ∈ missing, (creation_for outcome W E eid).isSome = true) :
    livePhase6 outcome W E missing =
      (missing, some (missing.filterMap (creation_for outcome W E))) := by
  induction missing with
  | nil => rfl
  | cons eid rest ih =>
    obtain ⟨res, hres⟩ :=
      Option.isSome_iff_exists.mp (h eid (List.mem_cons_self eid rest))
    have ihr := ih (fun x hx => h x (List.mem_cons_of_mem eid hx))
    simp [livePhase6, hres, ihr, List.filterMap_cons]

/-- C3: in live mode, whatever the per-employee POST outcomes are (any of
them may fail), run_phase_6 issues exactly one creation attempt per
missing employee, in MissingList order, and collects exactly one
CreationResult per missing employee: a single creation failure is caught
inside post_user and never aborts the remaining attempts. The hypothesis
states that the Phase-1-to-5 data is consistent (the two dict lookups hit
and the dates format), which the pipeline guarantees at this point. -/
theorem run_phase_6_live_attempts_each_once (outcome : String → PostOutcome)
    (W : List (String × WorkforceRecord)) (E : List (String × EmployeeRecord))
    (missing : List String)
    (h : ∀ eid ∈ missing, (creation_for outcome W E eid).isSome = true) :
    (run_phase_6 outcome W E missing false).1 = missing ∧
    (run_phase_6 outcome W E missing false).2 =
      some ⟨missing.filterMap (creation_for outcome W E), []⟩ ∧
    (missing.filterMap (creation_for outcome W E)).length = missing.length := by
  have hl := livePhase6_all_some outcome W E missing h
  refine ⟨?_, ?_, filterMap_length_all_some _ _ h⟩
  · simp [run_phase_6, hl]
  · simp [run_phase_6, hl]

/-- C3 witness: one missing employee whose POST fails. -/
theorem run_phase_6_live_attempts_each_once_witness :
    (∀ eid ∈ ["E1"],
      (creation_for (fun _ => .httpError 500 "boom") [("E1", wfW "E1" "P")]
        [("E1", empW "E1")] eid).isSome = true) ∧
    ((run_phase_6 (fun _ => .httpError 500 "boom") [("E1", wfW "E1" "P")]
        [("E1", empW "E1")] ["E1"] false).1 = ["E1"] ∧
    (run_phase_6 (fun _ => .httpError 500 "boom") [("E1", wfW "E1" "P")]
        [("E1", empW "E1")] ["E1"] false).2 =
      some ⟨["E1"].filterMap (creation_for (fun _ => .httpError 500 "boom")
        [("E1", wfW "E1" "P")] [("E1", empW "E1")]), []⟩ ∧
    (["E1"].filterMap (creation_for (fun _ => .httpError 500 "boom")
        [("E1", wfW "E1" "P")] [("E1", empW "E1")])).length = ["E1"].length) :=
  ⟨by decide,
   run_phase_6_live_attempts_each_once (fun _ => .httpError 500 "boom")
     [("E1", wfW "E1" "P")] [("E1", empW "E1")] ["E1"] (by decide)⟩

-- ===========================================================================
-- C8: Phase 6 dry-run mode
-- ===========================================================================

theorem optionMapList_all_some {α : Type} (f : String → Option α) (l : List String)
    (h : ∀ x ∈ l, (f x).isSome = true) : optionMapList f l = some (l.filterMap f) := by
  induction l with
  | nil => rfl
  | cons a rest ih =>
    obtain ⟨b, hb⟩ := Option.isSome_iff_exists.mp (h a (List.mem_cons_self a rest))
    have ihr := ih (fun x hx => h x (List.mem_cons_of_mem a hx))
    simp only [optionMapList, hb, ihr, List.filterMap_cons]

/-- C8: in dry-run mode run_phase_6 issues no creation POST at all (the
trace of POSTed ids is empty), returns an empty result list to the
caller, and builds one preview entry per missing employee, in order, each
tagged with the empl_id and display name and carrying exactly the payload
build_payload produces for that employee. -/
theorem run_phase_6_dry_run_preview (outcome : String → PostOutcome)
    (W : List (String × WorkforceRecord)) (E : List (String × EmployeeRecord))
    (missing : List String)
    (h : ∀ eid ∈ missing, (preview_for W E eid).isSome = true) :
    (run_phase_6 outcome W E missing true).1 = [] ∧
    (run_phase_6 outcome W E missing true).2 =
      some ⟨[], missing.filterMap (preview_for W E)⟩ ∧
    (missing.filterMap (preview_for W E)).length = missing.length ∧
    (∀ eid wf emp p, eid ∈ missing → dlookup eid W = some wf →
      dlookup eid E = some emp → build_payload wf emp = some p →
      (⟨eid, emp.first_name ++ " " ++ emp.last_name, p⟩ : PreviewEntry) ∈
        missing.filterMap (preview_for W E)) := by
  refine ⟨rfl, ?_, filterMap_length_all_some _ _ h, ?_⟩
  · simp [run_phase_6, optionMapList_all_some _ _ h]
  · intro eid wf emp p hmem hwf hemp hp
    rw [List.mem_filterMap]
    refine ⟨eid, hmem, ?_⟩
    simp [preview_for, hwf, hemp, hp]

/-- C8 witness: one missing employee previewed, nothing POSTed. -/
theorem run_phase_6_dry_run_preview_witness :
    (∀ eid ∈ ["E1"],
      (preview_for [("E1", wfW "E1" "P")] [("E1", empW "E1")] eid).isSome = true) ∧
    ((run_phase_6 (fun _ => .created "ok") [("E1", wfW "E1" "P")]
        [("E1", empW "E1")] ["E1"] true).1 = [] ∧
    (run_phase_6 (fun _ => .created "ok") [("E1", wfW "E1" "P")]
        [("E1", empW "E1")] ["E1"] true).2 =
      some ⟨[], ["E1"].filterMap (preview_for [("E1", wfW "E1" "P")] [("E1", empW "E1")])⟩ ∧
    (["E1"].filterMap (preview_for [("E1", wfW "E1" "P")] [("E1", empW "E1")])).length =
      (["E1"] : List String).length ∧
    (∀ eid wf emp p, eid ∈ ["E1"] → dlookup eid [("E1", wfW "E1" "P")] = some wf →
      dlookup eid [("E1", empW "E1")] = some emp → build_payload wf emp = some p →
      (⟨eid, emp.first_name ++ " " ++ emp.last_name, p⟩ : PreviewEntry) ∈
        ["E1"].filterMap (preview_for [("E1", wfW "E1" "P")] [("E1", empW "E1")]))) :=
  ⟨by decide,
   run_phase_6_dry_run_preview (fun _ => .created "ok") [("E1", wfW "E1" "P")]
     [("E1", empW "E1")] ["E1"] (by decide)⟩

-- ===========================================================================
-- C10: missing ⊆ employees keys ⊆ workforce keys, all lookups hit
-- ===========================================================================

theorem run_phase_3_keys_sub (g : String → Option EmployeeRecord)
    (W : List (String × WorkforceRecord)) :
    ∀ (acc : List (String × EmployeeRecord)) (eid : String),
      eid ∈ dkeys (W.foldl (fun acc p =>
        match g p.1 with
        | none => acc
        | some emp => if emp.is_active then acc ++ [(p.1, emp)] else acc) acc) →
      eid ∈ dkeys acc ∨ eid ∈ dkeys W := by
  induction W with
  | nil => intro acc eid h; exact Or.inl h
  | cons p rest ih =>
    intro acc eid h
    rw [List.foldl_cons] at h
    rcases ih _ eid h with hacc | hrest
    · rcases hg : g p.1 with _ | emp
      · simp only [hg] at hacc
        exact Or.inl hacc
      · simp only [hg] at hacc
        by_cases ha : emp.is_active = true
        · rw [if_pos ha] at hacc
          rw [dkeys, List.map_append, List.mem_append] at hacc
          rcases hacc with h1 | h2
          · exact Or.inl h1
          · simp only [List.map_cons, List.map_nil, List.mem_singleton] at h2
            subst h2
            rw [dkeys_cons]
            exact Or.inr (List.mem_cons_self _ _)
        · rw [if_neg ha] at hacc
          exact Or.inl hacc
    · rw [dkeys_cons]
      exact Or.inr (List.mem_cons_of_mem _ hrest)

/-- C10: for every run shape, each empl_id of the Phase-5 MissingList is a
key of the Phase-3 mapping, hence a key of the Phase-2 mapping, so the
unguarded lookups workforce[empl_id] and employees[empl_id] performed by
Phase 6 and by the report builders all hit. -/
theorem pipeline_phase6_lookups_safe (g : String → Option EmployeeRecord)
    (W : List (String × WorkforceRecord)) (X : List String) (eid : String)
    (h : eid ∈ run_phase_5 (run_phase_3 g W) X) :
    eid ∈ dkeys (run_phase_3 g W) ∧ eid ∈ dkeys W ∧
    (dlookup eid (run_phase_3 g W)).isSome = true ∧
    (dlookup eid W).isSome = true := by
  have hE : eid ∈ dkeys (run_phase_3 g W) := by
    unfold run_phase_5 at h
    exact (List.mem_filter.mp h).1
  have hW : eid ∈ dkeys W := by
    have := run_phase_3_keys_sub g W [] eid hE
    rcases this with h0 | hw
    · simp [dkeys] at h0
    · exact hw
  exact ⟨hE, hW, (mem_dkeys_iff_isSome eid _).mp hE, (mem_dkeys_iff_isSome eid W).mp hW⟩

/-- C10 witness: a one-employee run in which the employee is missing. -/
theorem pipeline_phase6_lookups_safe_witness :
    ("E1" ∈ run_phase_5 (run_phase_3 (fun e => some (empW e)) [("E1", wfW "E1" "P")]) []) ∧
    ("E1" ∈ dkeys (run_phase_3 (fun e => some (empW e)) [("E1", wfW "E1" "P")]) ∧
     "E1" ∈ dkeys [("E1", wfW "E1" "P")] ∧
     (dlookup "E1" (run_phase_3 (fun e => some (empW e)) [("E1", wfW "E1" "P")])).isSome = true ∧
     (dlookup "E1" [("E1", wfW "E1" "P")]).isSome = true) :=
  ⟨by decide,
   pipeline_phase6_lookups_safe (fun e => some (empW e)) [("E1", wfW "E1" "P")] [] "E1"
     (by decide)⟩

-- ===========================================================================
-- C4: live-run exit status reflects creation failures
-- ===========================================================================

theorem all_eq_not_any_not {α : Type} (l : List α) (p : α → Bool) :
    l.all p = !l.any (fun x => !p x) := by
  induction l with
  | nil => rfl
  | cons a rest ih =>
    rw [List.all_cons, List.any_cons, ih]
    cases p a <;> simp

/-- C4: in a live run that reaches Phase 6 and completes it with output
out, sync returns 1 exactly when some CreationResult has success = false,
and returns 0 exactly when every CreationResult has success = true. -/
theorem sync_live_status_iff (env : Env) (out : Phase6Out)
    (h1 : env.projects.isEmpty = false)
    (h2 : (run_phase_2 env.get_workforce env.projects).isEmpty = false)
    (h3 : (run_phase_3 env.get_employee
      (run_phase_2 env.get_workforce env.projects)).isEmpty = false)
    (h5 : (run_phase_5
      (run_phase_3 env.get_employee (run_phase_2 env.get_workforce env.projects))
      env.existing_cp_ids).isEmpty = false)
    (h6 : (run_phase_6 env.outcome
      (run_phase_2 env.get_workforce env.projects)
      (run_phase_3 env.get_employee (run_phase_2 env.get_workforce env.projects))
      (run_phase_5
        (run_phase_3 env.get_employee (run_phase_2 env.get_workforce env.projects))
        env.existing_cp_ids)
      false).2 = some out) :
    (sync env false = 1 ↔ out.results.any (fun r => !r.success) = true) ∧
    (sync env false = 0 ↔ out.results.all (fun r => r.success) = true) := by
  have hs : sync env false =
      (if out.results.any (fun r => !r.success) then 1 else 0) := by
    simp only [sync, h1, h2, h3, h5, h6, Bool.false_eq_true, if_false]
    simp
  rw [hs, all_eq_not_any_not]
  cases hfail : out.results.any (fun r => !r.success) <;> simp

/-- C4 witness: the end-to-end scenario of the spec — two qualifying
groups, three distinct active employees, one already present, one of the
two creations failing — returns status 1. -/
theorem sync_live_status_iff_witness :
    (envA.projects.isEmpty = false) ∧
    ((run_phase_2 envA.get_workforce envA.projects).isEmpty = false) ∧
    ((run_phase_3 envA.get_employee
      (run_phase_2 envA.get_workforce envA.projects)).isEmpty = false) ∧
    ((run_phase_5
      (run_phase_3 envA.get_employee (run_phase_2 envA.get_workforce envA.projects))
      envA.existing_cp_ids).isEmpty = false) ∧
    ((run_phase_6 envA.outcome
      (run_phase_2 envA.get_workforce envA.projects)
      (run_phase_3 envA.get_employee (run_phase_2 envA.get_workforce envA.projects))
      (run_phase_5
        (run_phase_3 envA.get_employee (run_phase_2 envA.get_workforce envA.projects))
        envA.existing_cp_ids)
      false).2 = some outA) ∧
    ((sync envA false = 1 ↔ outA.results.any (fun r => !r.success) = true) ∧
     (sync envA false = 0 ↔ outA.results.all (fun r => r.success) = true)) :=
  ⟨by decide, by decide, by decide, by decide, by decide,
   sync_live_status_iff envA outA (by decide) (by decide) (by decide) (by decide)
     (by decide)⟩

-- ===========================================================================
-- C7: empty Phase-1 result — the code returns failure, not success
-- ===========================================================================

/-- C7 counterexample: with an environment in which Phase 1 finds no
qualifying project, sync returns 1, not the 0 the claim asserts: the code
logs no_ct_projects_found at error level and classifies this early exit
as a failure. -/
theorem sync_empty_projects_cex : sync envE false = 1 ∧ ¬ sync envE false = 0 := by
  constructor
  · rfl
  · decide

/-- C7 amended: when Phase 1 returns an empty qualifying-group mapping,
sync takes the early-exit path and returns status 1 (the empty result is
classified as a failure), in either mode. -/
theorem sync_empty_projects_returns_failure (env : Env) (dry_run : Bool)
    (h : env.projects = []) : sync env dry_run = 1 := by
  unfold sync
  rw [h]
  rfl

/-- C7 amended witness. -/
theorem sync_empty_projects_returns_failure_witness :
    envE.projects = [] ∧ sync envE true = 1 :=
  ⟨rfl, sync_empty_projects_returns_failure envE true rfl⟩

-- ===========================================================================
-- C9: non-2xx surfacing by the three Costpoint fetches
-- ===========================================================================

/-- C9 counterexample: a 500 response to the employee-detail fetch is not
surfaced to the caller as a failure — get_employee catches the
HTTPStatusError and returns the normal absent value None. -/
theorem get_employee_non2xx_cex :
    get_employee "00123" (.httpError 500 "Internal Server Error") = .ok none ∧
    isHttpFailure (get_employee "00123" (.httpError 500 "Internal Server Error")) = false :=
  ⟨rfl, rfl⟩

/-- C9 amended: a non-2xx response is surfaced unchanged to the caller by
get_ct_projects and get_workforce, but get_employee catches it and
returns the normal absent value None, exactly as for an unknown employee
(Phase 3 then drops the employee). -/
theorem deltek_non2xx_handling (s : Nat) (b fid pid pname eid : String) :
    get_ct_projects fid (.httpError s b) = .error ⟨s, b⟩ ∧
    isHttpFailure (get_ct_projects fid (.httpError s b)) = true ∧
    get_workforce pid pname (.httpError s b) = .error ⟨s, b⟩ ∧
    isHttpFailure (get_workforce pid pname (.httpError s b)) = true ∧
    get_employee eid (.httpError s b) = .ok none ∧
    isHttpFailure (get_employee eid (.httpError s b)) = false :=
  ⟨rfl, rfl, rfl, rfl, rfl, rfl⟩

-- ===========================================================================
-- C5: Phase 4 pagination termination
-- ===========================================================================

theorem collectLoop_succ (page : Nat → UsersPage) (fuel offset : Nat) (acc : List String) :
    collectLoop page (fuel + 1) offset acc =
      match collectStep page offset acc with
      | .done a => some a
      | .next n a => collectLoop page fuel n a := rfl

theorem collectStep_next_inv (page : Nat → UsersPage) (offset : Nat) (acc : List String)
    (n : Nat) (a : List String) (h : collectStep page offset acc = .next n a) :
    (page offset).nextOffset = some n ∧ offset < n := by
  unfold collectStep at h
  by_cases hu : (page offset).users.isEmpty = true
  · simp [hu] at h
  · simp only [hu, Bool.false_eq_true, if_false] at h
    rcases ho : (page offset).nextOffset with _ | m
    · rw [ho] at h
      simp at h
    · simp only [ho] at h
      by_cases hle : m ≤ offset
      · rw [if_pos hle] at h
        simp at h
      · rw [if_neg hle] at h
        cases h
        exact ⟨rfl, by omega⟩

/-- C5: termination and stop behaviour of the per-status page loop. For
any listing whose returned next-offsets are bounded (every finite listing
is), the loop reaches a stop condition in finitely many iterations; and
whenever the current page has no items, or has items but the returned
next-offset is missing or does not advance past the current offset, the
loop stops right there and returns the dedup keys accumulated so far. -/
theorem run_phase_4_pagination_terminates (page : Nat → UsersPage) (B : Nat)
    (hB : ∀ o n, (page o).nextOffset = some n → n ≤ B) :
    (∀ offset acc, ∃ fuel res, collectLoop page fuel offset acc = some res) ∧
    (∀ offset acc fuel, (page offset).users = [] →
      collectLoop page (fuel + 1) offset acc = some acc) ∧
    (∀ offset acc fuel, ¬ (page offset).users = [] → (page offset).nextOffset = none →
      collectLoop page (fuel + 1) offset acc =
        some (addPageIds acc (page offset).users)) ∧
    (∀ offset acc fuel n, ¬ (page offset).users = [] →
      (page offset).nextOffset = some n → n ≤ offset →
      collectLoop page (fuel + 1) offset acc =
        some (addPageIds acc (page offset).users)) := by
  refine ⟨?_, ?_, ?_, ?_⟩
  · have hterm : ∀ k offset acc, B + 1 - offset ≤ k →
        ∃ fuel res, collectLoop page fuel offset acc = some res := by
      intro k
      induction k with
      | zero =>
        intro offset acc hk
        rcases hstep : collectStep page offset acc with a | ⟨n, a⟩
        · exact ⟨1, a, by rw [collectLoop_succ, hstep]⟩
        · exfalso
          obtain ⟨hn, hlt⟩ := collectStep_next_inv page offset acc n a hstep
          have := hB offset n hn
          omega
      | succ k ih =>
        intro offset acc hk
        rcases hstep : collectStep page offset acc with a | ⟨n, a⟩
        · exact ⟨1, a, by rw [collectLoop_succ, hstep]⟩
        · obtain ⟨hn, hlt⟩ := collectStep_next_inv page offset acc n a hstep
          have hnB := hB offset n hn
          obtain ⟨fuel, res, hres⟩ := ih n a (by omega)
          exact ⟨fuel + 1, res, by rw [collectLoop_succ, hstep]; exact hres⟩
    intro offset acc
    exact hterm (B + 1 - offset) offset acc le_rfl
  · intro offset acc fuel h
    rw [collectLoop_succ]
    have hstep : collectStep page offset acc = .done acc := by
      unfold collectStep
      simp [h]
    rw [hstep]
  · intro offset acc fuel hu ho
    rw [collectLoop_succ]
    have hstep : collectStep page offset acc = .done (addPageIds acc (page offset).users) := by
      unfold collectStep
      have : (page offset).users.isEmpty = false := by
        simpa [List.isEmpty_iff] using hu
      simp [this, ho]
    rw [hstep]
  · intro offset acc fuel n hu ho hle
    rw [collectLoop_succ]
    have hstep : collectStep page offset acc = .done (addPageIds acc (page offset).users) := by
      unfold collectStep
      have : (page offset).users.isEmpty = false := by
        simpa [List.isEmpty_iff] using hu
      simp [this, ho, hle]
    rw [hstep]

/-- C5 witness: an exhausted listing (empty first page, no cursor). -/
theorem run_phase_4_pagination_terminates_witness :
    (∀ o n, (pageW o).nextOffset = some n → n ≤ 0) ∧
    ((∀ offset acc, ∃ fuel res, collectLoop pageW fuel offset acc = some res) ∧
    (∀ offset acc fuel, (pageW offset).users = [] →
      collectLoop pageW (fuel + 1) offset acc = some acc) ∧
    (∀ offset acc fuel, ¬ (pageW offset).users = [] → (pageW offset).nextOffset = none →
      collectLoop pageW (fuel + 1) offset acc =
        some (addPageIds acc (pageW offset).users)) ∧
    (∀ offset acc fuel n, ¬ (pageW offset).users = [] →
      (pageW offset).nextOffset = some n → n ≤ offset →
      collectLoop pageW (fuel + 1) offset acc =
        some (addPageIds acc (pageW offset).users))) :=
  ⟨by simp [pageW], run_phase_4_pagination_terminates pageW 0 (by simp [pageW])⟩

-- ===========================================================================
-- C6: build_payload content
-- ===========================================================================

theorem parseIsoChars_take10 {cs : List Char} {v : Nat × Nat × Nat}
    (h : parseIsoChars cs = some v) : parseIsoChars (cs.take 10) = some v := by
  unfold parseIsoChars at h ⊢
  by_cases hv : validTimeChars (cs.drop 10) = true
  · rw [if_pos hv] at h
    have h1 : (cs.take 10).drop 10 = [] :=
      List.drop_eq_nil_of_le (by simp)
    have h2 : (cs.take 10).take 10 = cs.take 10 := by simp [List.take_take]
    rw [h1, h2]
    simpa [validTimeChars] using h
  · rw [if_neg hv] at h
    exact absurd h (by simp)

theorem date_field_cases (cfId : Nat) (s : String) (hs : dateOk s) :
    ∃ fl, dateField cfId s = some fl ∧
      (s = "" → fl = []) ∧
      (∀ y m d, parseIsoChars s.toList = some (y, m, d) →
        fl = [⟨cfId, pad2 m ++ "/" ++ pad2 d ++ "/" ++ toString y⟩] ∧
        parseIsoChars (s.toList.take 10) = some (y, m, d)) := by
  by_cases hE : s = ""
  · refine ⟨[], by simp [dateField, hE], fun _ => rfl, ?_⟩
    intro y m d hp
    rw [hE] at hp
    have h0 : parseIsoChars "".toList = none := rfl
    rw [h0] at hp
    exact Option.noConfusion hp
  · rcases hs with h | hps
    · exact absurd h hE
    · obtain ⟨⟨y, m, d⟩, hv⟩ := Option.isSome_iff_exists.mp hps
      refine ⟨[⟨cfId, pad2 m ++ "/" ++ pad2 d ++ "/" ++ toString y⟩], ?_,
        fun h => absurd h hE, ?_⟩
      · unfold dateField
        rw [if_neg hE]
        unfold format_date
        rw [hv]
        rfl
      · intro y2 m2 d2 hp2
        rw [hv] at hp2
        have ht := Option.some_inj.mp hp2
        obtain ⟨hy, hm, hd⟩ : y = y2 ∧ m = m2 ∧ d = d2 := by
          simpa [Prod.ext_iff] using ht
        subst hy
        subst hm
        subst hd
        exact ⟨rfl, parseIsoChars_take10 hv⟩

/-- C6: for every membership record and member detail whose date strings
are in the declared domain (ISO date-time or empty), build_payload is
total and produces exactly the specified payload: dedup key, labor
category, group id, derived team by the 2392 rule, group name; the two
date fields reformatted to MM/DD/YYYY from the date characters only,
present exactly when the source string is non-empty; and the email key
present exactly when the profile email is non-empty (an absent email
still yields a payload). -/
theorem build_payload_spec (wf : WorkforceRecord) (emp : EmployeeRecord)
    (hHire : dateOk emp.orig_hire_dt) (hBirth : dateOk emp.birth_dt) :
    payloadSpec wf emp := by
  obtain ⟨hl, hlEq, hlEmpty, hlParse⟩ :=
    date_field_cases CF_HIRE_DATE emp.orig_hire_dt hHire
  obtain ⟨bl, blEq, blEmpty, blParse⟩ :=
    date_field_cases CF_BIRTH_DATE emp.birth_dt hBirth
  refine ⟨⟨"user", false, emp.first_name, emp.last_name,
    [⟨CF_CP_ID, emp.empl_id⟩, ⟨CF_TITLE, wf.bill_lab_cat_cd⟩,
     ⟨CF_BRANCH, wf.proj_id⟩,
     ⟨CF_TEAM, if wf.proj_id.startsWith "2392" then "FL Security 2025"
      else "FL Baker 2025"⟩,
     ⟨CF_ORG, wf.proj_name⟩] ++ hl ++ bl,
    if emp.home_email_id = "" then none else some emp.home_email_id⟩,
    ?_, rfl, rfl, rfl, rfl, rfl,
    hl, bl, rfl, hlEmpty, hlParse, blEmpty, blParse⟩
  simp only [build_payload]
  rw [hlEq, blEq]
  simp [get_team]

/-- C6 witness: a 2392-prefixed project, a valid hire date, an empty
birth date and an absent email. -/
theorem build_payload_spec_witness :
    dateOk (empW "E1").orig_hire_dt ∧ dateOk (empW "E1").birth_dt ∧
    payloadSpec (wfW "E1" "2392100") (empW "E1") :=
  ⟨Or.inr (by decide), Or.inl rfl,
   build_payload_spec (wfW "E1" "2392100") (empW "E1") (Or.inr (by decide)) (Or.inl rfl)⟩

end NESync





